import Mathlib

/-!
Verification of the mercury packet-capture front end (`src/mercury.c`).

The development shallow-embeds the command-line handling, configuration
checks, and the file-replay dispatch/shutdown path of `main` as pure Lean
functions.  External collaborators (the packet processor, pcap file I/O,
the output thread, `get_nprocs`, the pthread primitives) are modelled by a
`World` record that fixes the outcome of each external call; the observable
behaviour of a run is the list of `Event`s it performs together with the
process exit code.
-/

namespace Mercury

/-- Result of a fallible library call (`enum status` in `mercury.h`): the C
code only ever tests `status` against zero (`status_ok`), so the embedding
collapses all non-ok values to `err`. -/
inductive Status where
  | ok : Status
  | err : Status
deriving DecidableEq

/-- Modelled from the spec: `struct mercury_config` and `mercury_config_init()`
live in `config.h`, which is not under `src/`.  Field defaults follow the
spec's external-interface section and the source's own comments: no input and
no output configured, one worker thread, replay repeat count 1 (the comment at
`mercury.c:478` calls `loop_count == 1` the default condition), all toggles
off.  `overwrite` stands for the `flags`/`mode` pair set by option `-o`. -/
structure MercuryConfig where
  read_filename : Option String := none
  write_filename : Option String := none
  capture_interface : Option String := none
  fingerprint_filename : Option String := none
  working_dir : Option String := none
  packet_filter_cfg : Option String := none
  user : Option String := none
  analysis : Nat := 0
  filter : Nat := 0
  num_threads : Int := 1
  loop_count : Int := 1
  adaptive : Nat := 0
  verbosity : Nat := 0
  rotate : Int := 0
  overwrite : Nat := 0
  buffer_fraction : Rat := 0
deriving DecidableEq

def mercury_config_init : MercuryConfig := {}

/-- One recognized command-line option, as delivered by `getopt_long`
(`mercury.c:256-278`): `getopt` itself is libc, so the embedding starts from
the stream of recognized options with their argument strings.  Options whose
`required_argument` is missing make `getopt` return `?`, covered by
`unknown`.  `multiple` is in the option table but has no `case 'm'` in the
switch, so it falls through to `default`. -/
inductive CmdOpt where
  | config (f : String)
  | read (f : String)
  | write (f : String)
  | directory (d : String)
  | capture (i : String)
  | fingerprint (f : String)
  | analysis
  | overwrite
  | select (arg : Option String)
  | help
  | threads (arg : String)
  | limit (arg : String)
  | loop (arg : String)
  | adaptive
  | user (u : String)
  | buffer (b : Rat)
  | verbose
  | multiple (c : String)
  | unknown
deriving DecidableEq

/-- Observable actions of a run.  `printMsg` is a `printf` to stdout,
`printErr` a `perror`/`fprintf(stderr, ...)` (the `strerror` prefix is not
modelled).  `outputThreadInit` is the successful `output_thread_init` call,
which creates the output coordinator thread; `afPacketDispatch` is the opaque
`af_packet_bind_and_dispatch` call of the live-capture path;
`spawnReaderThread`/`joinReaderThread` are the `pthread_create`/`pthread_join`
of the pcap reader thread in `open_and_dispatch`; `setStopFlag` is the
assignment `sig_stop_output = 1`; `joinOutputThread` the final
`pthread_join(output_thread, NULL)`; `destroyQueues` the call
`destroy_thread_queues(&t_queues)`.  `setPercentAccept` is
`set_percent_accept`, `foundCpus` the report printed when `-t cpu` resolves
the thread count, `printStats` the final statistics line of
`open_and_dispatch` (byte rate omitted: it is `bytes * 1e9 / nanos`). -/
inductive Event where
  | printMsg (s : String)
  | printErr (s : String)
  | setPercentAccept (n : Nat)
  | outputThreadInit
  | afPacketDispatch
  | broadcastStart
  | spawnReaderThread
  | joinReaderThread
  | closePcapFile
  | printStats (packets bytes nanos : Nat)
  | foundCpus (ncpus : Nat) (nthreads : Int)
  | setStopFlag
  | joinOutputThread
  | destroyQueues
deriving DecidableEq

/-- Events that create a thread (and, through the output thread or the
capture dispatch, the only events that can create an output file). -/
def Event.spawnsThread : Event → Bool
  | .outputThreadInit => true
  | .afPacketDispatch => true
  | .spawnReaderThread => true
  | _ => false

/-- The three shutdown-protocol actions of `main` (`mercury.c:545-547`). -/
def Event.isShutdownEvent : Event → Bool
  | .setStopFlag => true
  | .joinOutputThread => true
  | .destroyQueues => true
  | _ => false

def Event.isPrint : Event → Bool
  | .printMsg _ => true
  | .printErr _ => true
  | _ => false

def Event.isStats : Event → Bool
  | .printStats _ _ _ => true
  | _ => false

/-- Outcomes of the external calls a run performs, fixed up front: the
number of processors (`get_nprocs`), whether `analysis_init`,
`setup_signal_handler` and `pkt_proc_new_from_config` succeed, the return
values of `output_thread_init`, `pthread_cond_broadcast` and
`pthread_create`, the statuses of `filename_append`, `pcap_file_open` and
`pcap_file_dispatch_pkt_processor`, the counters found in the packet
processor after the reader thread is joined, the elapsed time, and the
effect of `mercury_config_read_from_file` (a config file can set arbitrary
fields; `--config` handling itself lives outside `src/`). -/
structure World where
  nprocs : Nat
  analysis_init_ok : Bool
  setup_signal_ok : Bool
  output_thread_init_ret : Int
  pkt_proc_new_ok : Bool
  filename_append_status : Status
  pcap_open_status : Status
  broadcast_ret : Nat
  pthread_create_ret : Nat
  dispatch_status : Status
  bytes_written : Nat
  packets_written : Nat
  nano_seconds : Nat
  readConfigFile : String → MercuryConfig → MercuryConfig

/-- `EXIT_ERR` (`mercury.c:158`), the code passed to `exit` by `usage`. -/
def EXIT_ERR : Nat := 255

/-- Stands for the `mercury_help` usage text (`mercury.c:160-184`); the
content is irrelevant to the claims, only the fact that it is printed. -/
def mercury_help : String := "mercury usage summary"

/-- Stands for the `mercury_extended_help` text (`mercury.c:186-232`). -/
def mercury_extended_help : String := "mercury extended help"

/-- `usage()` (`mercury.c:240-249`): optionally print `error: <err_string>`,
print the help text, optionally the extended help, and `exit(EXIT_ERR)`.
Returns the printed events and the exit code. -/
def usage (err_string : Option String) (extended_help : Bool) : List Event × Nat :=
  ((match err_string with
    | some e => [Event.printMsg ("error: " ++ e)]
    | none => []) ++
   [Event.printMsg mercury_help] ++
   (if extended_help then [Event.printMsg mercury_extended_help] else []),
   EXIT_ERR)

/-- `strtol(s, NULL, 10)` on the inputs the claims use: an optional sign
followed by a digit prefix; no digits yields 0 (leading whitespace and the
overflow `errno` path are not modelled). -/
def strtol10Aux : List Char → Int → Int
  | [], acc => acc
  | c :: cs, acc => if c.isDigit then strtol10Aux cs (10 * acc + (c.toNat - 48)) else acc

def strtol10 (s : String) : Int :=
  match s.toList with
  | '-' :: cs => - strtol10Aux cs 0
  | '+' :: cs => strtol10Aux cs 0
  | cs => strtol10Aux cs 0

/-- `case 't'` of the option switch (`mercury.c:375-389`): the literal
string `cpu` requests one thread per processor, encoded as -1; anything else
goes through `strtol`. -/
def threadsVal (arg : String) : Int :=
  if arg = "cpu" then -1 else strtol10 arg

/-- The body of one iteration of the `getopt_long` loop (`mercury.c:282-453`).
`Except.error` is a `usage`/`exit` leaving the loop; `Except.ok` carries the
updated config and `num_inputs` counter.  The `select` message is abbreviated. -/
def parseOne (w : World) (o : CmdOpt) (cfg : MercuryConfig) (n : Nat) :
    Except (List Event × Nat) (MercuryConfig × Nat) :=
  match o with
  | .config f => .ok (w.readConfigFile f cfg, n + 1)
  | .read f => .ok ({ cfg with read_filename := some f }, n + 1)
  | .write f => .ok ({ cfg with write_filename := some f }, n)
  | .directory d => .ok ({ cfg with working_dir := some d }, n + 1)
  | .capture i => .ok ({ cfg with capture_interface := some i }, n + 1)
  | .fingerprint f => .ok ({ cfg with fingerprint_filename := some f }, n)
  | .analysis => .ok ({ cfg with analysis := 1 }, n)
  | .overwrite => .ok ({ cfg with overwrite := 1 }, n)
  | .select arg =>
    match arg with
    | some s =>
      match s.toList with
      | '=' :: c :: cs =>
        .ok ({ cfg with packet_filter_cfg := some (String.mk (c :: cs)), filter := 1 }, n)
      | _ => .error (usage (some "error: option s or select has the form s=packet-filter-config-string") false)
    | none => .ok ({ cfg with filter := 1 }, n)
  | .help =>
    .error (Event.printMsg "mercury: packet metadata capture and analysis" :: (usage none true).fst,
            EXIT_ERR)
  | .threads arg => .ok ({ cfg with num_threads := threadsVal arg }, n)
  | .limit arg => .ok ({ cfg with rotate := strtol10 arg }, n)
  | .loop arg => .ok ({ cfg with loop_count := strtol10 arg }, n)
  | .adaptive => .ok ({ cfg with adaptive := 1 }, n)
  | .user u => .ok ({ cfg with user := some u }, n)
  | .buffer b =>
    if b < 0 ∨ 1 < b then
      .error (usage (some "buffer fraction must be between 0.0 and 1.0 inclusive") false)
    else .ok ({ cfg with buffer_fraction := b }, n)
  | .verbose => .ok ({ cfg with verbosity := 1 }, n)
  | .multiple _ => .error (usage none false)
  | .unknown => .error (usage none false)

/-- The whole `while(1)` option loop of `main`. -/
def parseLoop (w : World) : List CmdOpt → MercuryConfig → Nat →
    Except (List Event × Nat) (MercuryConfig × Nat)
  | [], cfg, n => .ok (cfg, n)
  | o :: os, cfg, n =>
    match parseOne w o cfg n with
    | .error r => .error r
    | .ok (cfg', n') => parseLoop w os cfg' n'

/-- Options that increment `num_inputs` in the switch: `--config`, `-r`,
`-d` and `-c` (`mercury.c:286,294,309,317`). -/
def countsAsInput : CmdOpt → Bool
  | .config _ => true
  | .read _ => true
  | .directory _ => true
  | .capture _ => true
  | _ => false

def isConfigOrDir : CmdOpt → Bool
  | .config _ => true
  | .directory _ => true
  | _ => false

/-- `pcap_reader_thread_context_init_from_config` (`mercury.c:59-87`):
initialize the packet processor, then (when a read file is configured)
append the filename and open the pcap input file.  Returns what it prints
and the `enum status` result. -/
def pcap_reader_thread_context_init_from_config (cfg : MercuryConfig) (w : World) :
    List Event × Status :=
  if ¬ w.pkt_proc_new_ok then
    ([Event.printMsg "error: could not initialize frame handler"], .err)
  else
    match cfg.read_filename with
    | none => ([], .ok)
    | some f =>
      if w.filename_append_status ≠ .ok then ([], .err)
      else if w.pcap_open_status ≠ .ok then
        ([Event.printMsg ("could not open pcap input file " ++ f)], .err)
      else ([], .ok)

/-- `open_and_dispatch` (`mercury.c:102-155`).  `Except.error code` is a
process `exit(code)` from inside the function; `Except.ok st` is a normal
return with status `st` (which `main` discards).  On the success path the
reader thread is created and joined, the dispatch may report an error from
inside the thread, the pcap file is closed, and the statistics line is
printed when both a write file and verbosity are configured. -/
def open_and_dispatch (cfg : MercuryConfig) (w : World) : List Event × Except Nat Status :=
  let r := pcap_reader_thread_context_init_from_config cfg w
  if r.snd ≠ .ok then
    (r.fst ++ [Event.printErr "could not initialize pcap reader thread context"], .ok .err)
  else if w.broadcast_ret ≠ 0 then
    (r.fst ++ [Event.printMsg "error broadcasting all clear on output start condition"], .error EXIT_ERR)
  else if w.pthread_create_ret ≠ 0 then
    (r.fst ++ [Event.broadcastStart, Event.printMsg "error creating file reader thread"], .error EXIT_ERR)
  else
    (r.fst ++ [Event.broadcastStart, Event.spawnReaderThread] ++
      (if w.dispatch_status ≠ .ok then [Event.printMsg "error in pcap file dispatch"] else []) ++
      [Event.joinReaderThread, Event.closePcapFile] ++
      (if cfg.write_filename ≠ none ∧ cfg.verbosity ≠ 0 then
        [Event.printStats w.packets_written w.bytes_written w.nano_seconds] else []),
     .ok .ok)

/-- The tail of `main` (`mercury.c:544-549`): announce the stop, set
`sig_stop_output`, join the output thread, destroy the queues, return 0. -/
def shutdownSuffix : List Event :=
  [Event.printErr "Stopping output thread and flushing queued output to disk.",
   Event.setStopFlag, Event.joinOutputThread, Event.destroyQueues]

/-- The input-dependent branch of `main` (`mercury.c:513-549`): live capture,
file replay, or neither (when the single input was `--config`/`-d`), each
followed by the shutdown tail unless the process exited inside
`open_and_dispatch`.  The return status of `open_and_dispatch` is discarded,
exactly as at `mercury.c:535`. -/
def mainDispatch (cfg : MercuryConfig) (w : World) : List Event × Nat :=
  match cfg.capture_interface with
  | some _ =>
    let esV := if cfg.verbosity ≠ 0 then [Event.printMsg "initializing interface"] else []
    if w.output_thread_init_ret ≠ 0 then
      (esV ++ [Event.printErr "Unable to initialize output thread"], 1)
    else
      (esV ++ [Event.outputThreadInit, Event.afPacketDispatch] ++ shutdownSuffix, 0)
  | none =>
    match cfg.read_filename with
    | some _ =>
      if w.output_thread_init_ret ≠ 0 then
        ([Event.printErr "Unable to initialize output thread"], 1)
      else
        let d := open_and_dispatch cfg w
        match d.snd with
        | .error code => (Event.outputThreadInit :: d.fst, code)
        | .ok _ => (Event.outputThreadInit :: d.fst ++ shutdownSuffix, 0)
    | none => (shutdownSuffix, 0)

/-- `main` from the signal-handler setup to the dispatch branch
(`mercury.c:498-511`): report a signal-handler failure, resolve `-t cpu`
into `get_nprocs()` processors (printing the report of `mercury.c:506`),
then dispatch. -/
def mainTail (cfg : MercuryConfig) (w : World) : List Event × Nat :=
  let esSig := if ¬ w.setup_signal_ok then [Event.printErr "error while setting up signal handlers"] else []
  let nThreads : Int := if cfg.num_threads = -1 then (w.nprocs : Int) else cfg.num_threads
  let esCpu := if cfg.num_threads = -1 then [Event.foundCpus w.nprocs nThreads] else []
  let r := mainDispatch cfg w
  (esSig ++ esCpu ++ r.fst, r.snd)

/-- `main` from the loop-count report to the end (`mercury.c:482-493`): print
the loop count when it exceeds 1, enforce that `--adaptive` comes with both
`-c` and `-w`, seed the admission percentage at 30, and continue. -/
def mainBody (cfg : MercuryConfig) (w : World) : List Event × Nat :=
  let esLoop := if 1 < cfg.loop_count then [Event.printMsg ("Loop count: " ++ toString cfg.loop_count)] else []
  if cfg.adaptive > 0 then
    if cfg.write_filename = none ∨ cfg.capture_interface = none then
      (esLoop ++ (usage (some "The option --adaptive requires options -c capture interface and -w pcap file.") false).fst,
       EXIT_ERR)
    else
      (esLoop ++ Event.setPercentAccept 30 :: (mainTail cfg w).fst, (mainTail cfg w).snd)
  else
    (esLoop ++ (mainTail cfg w).fst, (mainTail cfg w).snd)

/-- The configuration checks of `main` after the option loop
(`mercury.c:456-481`), in source order: exactly one input, not both outputs,
multiple threads need an output file, `analysis_init` failure returns
`EXIT_FAILURE`, and the loop count must be at least 1. -/
def mainAfterParse (cfg : MercuryConfig) (num_inputs : Nat) (w : World) : List Event × Nat :=
  if num_inputs = 0 then
    usage (some "neither read [r] nor capture [c] specified on command line") false
  else if 1 < num_inputs then
    usage (some "incompatible arguments read [r] and capture [c] specified on command line") false
  else if cfg.fingerprint_filename ≠ none ∧ cfg.write_filename ≠ none then
    usage (some "both fingerprint [f] and write [w] specified on command line") false
  else if cfg.num_threads ≠ 1 ∧ cfg.fingerprint_filename = none ∧ cfg.write_filename = none then
    usage (some "multiple threads [t] requested, but neither fingerprint [f] no write [w] specified on command line") false
  else if cfg.analysis ≠ 0 ∧ ¬ w.analysis_init_ok then ([], 1)
  else if cfg.loop_count < 1 then
    usage (some "Invalid loop count, it should be >= 1") false
  else mainBody cfg w

/-- `main` (`mercury.c:251-550`): run the option loop from the initial
configuration, then the checks and the pipeline. -/
def mercuryMain (opts : List CmdOpt) (w : World) : List Event × Nat :=
  match parseLoop w opts mercury_config_init 0 with
  | .error r => r
  | .ok (cfg, n) => mainAfterParse cfg n w

end Mercury

namespace Mercury

/-! ### List helpers -/

/-- Unique decomposition around an element that occurs in neither prefix. -/
theorem append_middle_inj {α : Type} :
    ∀ (l1 p1 : List α) (a : α) (l2 p2 : List α),
      l1 ++ a :: l2 = p1 ++ a :: p2 → a ∉ l1 → a ∉ p1 → l1 = p1 ∧ l2 = p2 := by
  intro l1
  induction l1 with
  | nil =>
    intro p1 a l2 p2 heq _ hp1
    cases p1 with
    | nil => simpa using heq
    | cons b p1' =>
      simp only [List.nil_append, List.cons_append, List.cons.injEq] at heq
      exact absurd (heq.1 ▸ List.mem_cons_self b p1') hp1
  | cons c l1' ih =>
    intro p1 a l2 p2 heq hl1 hp1
    cases p1 with
    | nil =>
      simp only [List.cons_append, List.nil_append, List.cons.injEq] at heq
      exact absurd (heq.1 ▸ List.mem_cons_self c l1') hl1
    | cons b p1' =>
      simp only [List.cons_append, List.cons.injEq] at heq
      have h' := ih p1' a l2 p2 heq.2 (fun h => hl1 (List.mem_cons_of_mem c h))
        (fun h => hp1 (List.mem_cons_of_mem b h))
      exact ⟨by rw [heq.1, h'.1], h'.2⟩

/-- Two distinct positions satisfying `p` force at least two `p`-hits. -/
theorem countP_two_of_get {α : Type} (p : α → Bool) :
    ∀ (l : List α) (i j : Nat) (hi : i < l.length) (hj : j < l.length),
      i ≠ j → p (l.get ⟨i, hi⟩) = true → p (l.get ⟨j, hj⟩) = true →
      2 ≤ l.countP p := by
  intro l
  induction l with
  | nil => intro i j hi; simp at hi
  | cons x xs ih =>
    intro i j hi hj hij hpi hpj
    cases i with
    | zero =>
      cases j with
      | zero => exact absurd rfl hij
      | succ j' =>
        simp only [List.get] at hpi hpj
        have hx : 0 < xs.countP p := by
          rw [List.countP_pos_iff]
          exact ⟨_, List.get_mem xs _ _, hpj⟩
        rw [List.countP_cons_of_pos p xs hpi]
        omega
    | succ i' =>
      cases j with
      | zero =>
        simp only [List.get] at hpi hpj
        have hx : 0 < xs.countP p := by
          rw [List.countP_pos_iff]
          exact ⟨_, List.get_mem xs _ _, hpi⟩
        rw [List.countP_cons_of_pos p xs hpj]
        omega
      | succ j' =>
        simp only [List.get] at hpi hpj
        have h := ih i' j' (by simpa using hi) (by simpa using hj) (by omega) hpi hpj
        have := List.countP_cons p x xs
        omega

/-- Two distinct members satisfying `p` force at least two `p`-hits. -/
theorem countP_two_of_mem {α : Type} [DecidableEq α] (p : α → Bool) (l : List α) (a b : α)
    (ha : a ∈ l) (hb : b ∈ l) (hab : a ≠ b) (hpa : p a = true) (hpb : p b = true) :
    2 ≤ l.countP p := by
  obtain ⟨i, hi⟩ := List.mem_iff_get.mp ha
  obtain ⟨j, hj⟩ := List.mem_iff_get.mp hb
  refine countP_two_of_get p l i j i.isLt j.isLt (fun h => hab ?_) (hi ▸ hpa) (hj ▸ hpb)
  rw [← hi, ← hj]
  congr 1
  exact Fin.ext h

/-! ### Facts about `usage` -/

theorem usage_snd (m : Option String) (e : Bool) : (usage m e).snd = EXIT_ERR := rfl

theorem usage_all_prints (m : Option String) (e : Bool) :
    (usage m e).fst.all Event.isPrint = true := by
  cases m <;> cases e <;> simp [usage, Event.isPrint]

theorem usage_help_mem (m : Option String) (e : Bool) :
    Event.printMsg mercury_help ∈ (usage m e).fst := by
  cases m <;> cases e <;> simp [usage]

theorem usage_err_mem (m : String) (e : Bool) :
    Event.printMsg ("error: " ++ m) ∈ (usage (some m) e).fst := by
  cases e <;> simp [usage]

theorem isPrint_not_spawns {ev : Event} (h : ev.isPrint = true) : ev.spawnsThread = false := by
  cases ev <;> simp_all [Event.isPrint, Event.spawnsThread]

theorem isPrint_not_shutdown {ev : Event} (h : ev.isPrint = true) : ev.isShutdownEvent = false := by
  cases ev <;> simp_all [Event.isPrint, Event.isShutdownEvent]

/-- Every event list consisting of prints creates no thread. -/
def spawnFree (es : List Event) : Bool := es.all (fun ev => !ev.spawnsThread)

def noShutdown (es : List Event) : Bool := es.all (fun ev => !ev.isShutdownEvent)

theorem spawnFree_of_prints {es : List Event} (h : es.all Event.isPrint = true) :
    spawnFree es = true := by
  rw [List.all_eq_true] at h
  simp only [spawnFree]
  rw [List.all_eq_true]
  intro ev hev
  simp [isPrint_not_spawns (h ev hev)]

theorem noShutdown_of_prints {es : List Event} (h : es.all Event.isPrint = true) :
    noShutdown es = true := by
  rw [List.all_eq_true] at h
  simp only [noShutdown]
  rw [List.all_eq_true]
  intro ev hev
  simp [isPrint_not_shutdown (h ev hev)]

theorem usage_spawnFree (m : Option String) (e : Bool) : spawnFree (usage m e).fst = true :=
  spawnFree_of_prints (usage_all_prints m e)

theorem usage_noShutdown (m : Option String) (e : Bool) : noShutdown (usage m e).fst = true :=
  noShutdown_of_prints (usage_all_prints m e)

end Mercury

namespace Mercury

/-! ### Shape of the traces of `main`

Every trace of `mainAfterParse` either contains none of the shutdown
events, or is some shutdown-free prefix followed by exactly the
`shutdownSuffix` block of `mercury.c:544-547`. -/

def ShutdownShape (r : List Event) : Prop :=
  noShutdown r = true ∨ ∃ es, r = es ++ shutdownSuffix ∧ noShutdown es = true

theorem noShutdown_append {a b : List Event} (ha : noShutdown a = true)
    (hb : noShutdown b = true) : noShutdown (a ++ b) = true := by
  simp only [noShutdown] at *
  simp [List.all_append, ha, hb]

theorem shutdownShape_prepend {p es : List Event} (hp : noShutdown p = true)
    (h : ShutdownShape es) : ShutdownShape (p ++ es) := by
  rcases h with h | ⟨es', heq, hes⟩
  · exact Or.inl (noShutdown_append hp h)
  · exact Or.inr ⟨p ++ es', by rw [heq, List.append_assoc], noShutdown_append hp hes⟩

theorem pcap_init_noShutdown (cfg : MercuryConfig) (w : World) :
    noShutdown (pcap_reader_thread_context_init_from_config cfg w).fst = true := by
  unfold pcap_reader_thread_context_init_from_config
  split
  · simp [noShutdown, Event.isShutdownEvent]
  · split
    · simp [noShutdown]
    · split
      · simp [noShutdown]
      · split
        · simp [noShutdown, Event.isShutdownEvent]
        · simp [noShutdown]

theorem noShutdown_singles :
    noShutdown [Event.printErr "could not initialize pcap reader thread context"] = true ∧
    noShutdown [Event.printMsg "error broadcasting all clear on output start condition"] = true ∧
    noShutdown [Event.broadcastStart, Event.spawnReaderThread] = true ∧
    noShutdown [Event.joinReaderThread, Event.closePcapFile] = true := by
  refine ⟨?_, ?_, ?_, ?_⟩ <;> simp [noShutdown, Event.isShutdownEvent]

theorem open_and_dispatch_noShutdown (cfg : MercuryConfig) (w : World) :
    noShutdown (open_and_dispatch cfg w).fst = true := by
  have hinit := pcap_init_noShutdown cfg w
  simp only [open_and_dispatch]
  split
  · exact noShutdown_append hinit (by simp [noShutdown, Event.isShutdownEvent])
  · split
    · exact noShutdown_append hinit (by simp [noShutdown, Event.isShutdownEvent])
    · split
      · exact noShutdown_append hinit (by simp [noShutdown, Event.isShutdownEvent])
      · refine noShutdown_append (noShutdown_append (noShutdown_append (noShutdown_append
          hinit ?_) ?_) ?_) ?_
        · simp [noShutdown, Event.isShutdownEvent]
        · split <;> simp [noShutdown, Event.isShutdownEvent]
        · simp [noShutdown, Event.isShutdownEvent]
        · split <;> simp [noShutdown, Event.isShutdownEvent]

theorem mainDispatch_shape (cfg : MercuryConfig) (w : World) :
    ShutdownShape (mainDispatch cfg w).fst := by
  simp only [mainDispatch]
  split
  · split
    · refine Or.inl (noShutdown_append ?_ ?_)
      · split <;> simp [noShutdown, Event.isShutdownEvent]
      · simp [noShutdown, Event.isShutdownEvent]
    · refine Or.inr ⟨(if cfg.verbosity ≠ 0 then [Event.printMsg "initializing interface"] else []) ++
        [Event.outputThreadInit, Event.afPacketDispatch], by simp, noShutdown_append ?_ ?_⟩
      · split <;> simp [noShutdown, Event.isShutdownEvent]
      · simp [noShutdown, Event.isShutdownEvent]
  · split
    · split
      · exact Or.inl (by simp [noShutdown, Event.isShutdownEvent])
      · split
        · refine Or.inl (noShutdown_append (a := [Event.outputThreadInit])
            (by simp [noShutdown, Event.isShutdownEvent]) (open_and_dispatch_noShutdown cfg w))
        · refine Or.inr ⟨Event.outputThreadInit :: (open_and_dispatch cfg w).fst, by simp, ?_⟩
          exact noShutdown_append (a := [Event.outputThreadInit])
            (by simp [noShutdown, Event.isShutdownEvent]) (open_and_dispatch_noShutdown cfg w)
    · exact Or.inr ⟨[], by simp, by simp [noShutdown]⟩

theorem mainTail_shape (cfg : MercuryConfig) (w : World) :
    ShutdownShape (mainTail cfg w).fst := by
  simp only [mainTail]
  rw [List.append_assoc]
  refine shutdownShape_prepend ?_ (shutdownShape_prepend ?_ (mainDispatch_shape cfg w))
  · split <;> simp [noShutdown, Event.isShutdownEvent]
  · split <;> simp [noShutdown, Event.isShutdownEvent]

theorem mainBody_shape (cfg : MercuryConfig) (w : World) :
    ShutdownShape (mainBody cfg w).fst := by
  simp only [mainBody]
  split
  · split
    · refine Or.inl (noShutdown_append ?_ (usage_noShutdown _ _))
      split <;> simp [noShutdown, Event.isShutdownEvent]
    · rw [show Event.setPercentAccept 30 :: (mainTail cfg w).fst =
        [Event.setPercentAccept 30] ++ (mainTail cfg w).fst from rfl]
      refine shutdownShape_prepend ?_ (shutdownShape_prepend ?_ (mainTail_shape cfg w))
      · split <;> simp [noShutdown, Event.isShutdownEvent]
      · simp [noShutdown, Event.isShutdownEvent]
  · refine shutdownShape_prepend ?_ (mainTail_shape cfg w)
    split <;> simp [noShutdown, Event.isShutdownEvent]

theorem mainAfterParse_shape (cfg : MercuryConfig) (n : Nat) (w : World) :
    ShutdownShape (mainAfterParse cfg n w).fst := by
  simp only [mainAfterParse]
  split
  · exact Or.inl (usage_noShutdown _ _)
  · split
    · exact Or.inl (usage_noShutdown _ _)
    · split
      · exact Or.inl (usage_noShutdown _ _)
      · split
        · exact Or.inl (usage_noShutdown _ _)
        · split
          · exact Or.inl (by simp [noShutdown])
          · split
            · exact Or.inl (usage_noShutdown _ _)
            · exact mainBody_shape cfg w

end Mercury

namespace Mercury

theorem noShutdown_not_mem {es : List Event} {e : Event} (hes : noShutdown es = true)
    (he : e.isShutdownEvent = true) : e ∉ es := by
  intro hmem
  simp only [noShutdown, List.all_eq_true] at hes
  have h := hes e hmem
  rw [he] at h
  simp at h

/-- An element occurring in neither side of a known decomposition splits any
other decomposition around it in exactly the same place. -/
theorem unique_split (l1 l2 : List Event) {tr pre post : List Event} {a : Event}
    (htr : tr = l1 ++ a :: l2) (hl1 : a ∉ l1) (hl2 : a ∉ l2)
    (h : tr = pre ++ a :: post) : pre = l1 ∧ post = l2 := by
  have hc1 : tr.count a = 1 := by
    rw [htr, List.count_append, List.count_cons_self,
      List.count_eq_zero.mpr hl1, List.count_eq_zero.mpr hl2]
  rw [h, List.count_append, List.count_cons_self] at hc1
  have hpre : a ∉ pre := List.count_eq_zero.mp (by omega)
  have := append_middle_inj l1 pre a l2 post (by rw [← htr, h]) hl1 hpre
  exact ⟨this.1.symm, this.2.symm⟩

/-- C1: during shutdown, the stop flag `sig_stop_output` is set only after
the pcap reader (producer) thread has been joined — no reader-thread spawn
or join happens after `setStopFlag`; the output coordinator thread is joined
only after the stop flag is set; and `destroy_thread_queues` runs only after
both the reader join and the output-thread join (`mercury.c:130-141` and
`mercury.c:544-547`). -/
theorem C1_shutdown_protocol (cfg : MercuryConfig) (n : Nat) (w : World)
    (_hcap : cfg.capture_interface = none) :
    (∀ pre post, (mainAfterParse cfg n w).fst = pre ++ Event.setStopFlag :: post →
        Event.spawnReaderThread ∉ post ∧ Event.joinReaderThread ∉ post) ∧
    (∀ pre post, (mainAfterParse cfg n w).fst = pre ++ Event.joinOutputThread :: post →
        Event.setStopFlag ∈ pre ∧ Event.joinReaderThread ∉ post) ∧
    (∀ pre post, (mainAfterParse cfg n w).fst = pre ++ Event.destroyQueues :: post →
        Event.joinOutputThread ∈ pre ∧ Event.joinReaderThread ∉ post ∧
        Event.spawnReaderThread ∉ post) := by
  rcases mainAfterParse_shape cfg n w with hall | ⟨es, htr, hes⟩
  · refine ⟨fun pre post h => ?_, fun pre post h => ?_, fun pre post h => ?_⟩ <;>
      exact absurd (h ▸ List.mem_append_right pre (List.mem_cons_self _ _))
        (noShutdown_not_mem hall (by simp [Event.isShutdownEvent]))
  · have hstopEs := noShutdown_not_mem hes (e := Event.setStopFlag) (by simp [Event.isShutdownEvent])
    have hjoinEs := noShutdown_not_mem hes (e := Event.joinOutputThread) (by simp [Event.isShutdownEvent])
    have hdesEs := noShutdown_not_mem hes (e := Event.destroyQueues) (by simp [Event.isShutdownEvent])
    refine ⟨fun pre post h => ?_, fun pre post h => ?_, fun pre post h => ?_⟩
    · have hsplit := unique_split
        (es ++ [Event.printErr "Stopping output thread and flushing queued output to disk."])
        [Event.joinOutputThread, Event.destroyQueues]
        (by rw [htr]; simp [shutdownSuffix])
        (by simp [hstopEs]) (by simp) h
      rw [hsplit.2]
      simp
    · have hsplit := unique_split
        (es ++ [Event.printErr "Stopping output thread and flushing queued output to disk.",
          Event.setStopFlag])
        [Event.destroyQueues]
        (by rw [htr]; simp [shutdownSuffix])
        (by simp [hjoinEs]) (by simp) h
      refine ⟨?_, ?_⟩
      · rw [hsplit.1]; simp
      · rw [hsplit.2]; simp
    · have hsplit := unique_split
        (es ++ [Event.printErr "Stopping output thread and flushing queued output to disk.",
          Event.setStopFlag, Event.joinOutputThread])
        []
        (by rw [htr]; simp [shutdownSuffix])
        (by simp [hdesEs]) (by simp) h
      refine ⟨?_, ?_, ?_⟩
      · rw [hsplit.1]; simp
      · rw [hsplit.2]; simp
      · rw [hsplit.2]; simp

end Mercury

namespace Mercury

/-! ### Facts about the option loop -/

theorem usage_pair_spec {m : Option String} {b : Bool} {es : List Event} {code : Nat}
    (h : usage m b = (es, code)) :
    code = EXIT_ERR ∧ es.all Event.isPrint = true ∧ Event.printMsg mercury_help ∈ es := by
  have h1 : es = (usage m b).fst := by rw [h]
  have h2 : code = (usage m b).snd := by rw [h]
  exact ⟨h2.trans (usage_snd m b), h1 ▸ usage_all_prints m b, h1 ▸ usage_help_mem m b⟩

theorem parseLoop_cons_ok {w : World} {o : CmdOpt} {os : List CmdOpt} {cfg : MercuryConfig}
    {n : Nat} {r : MercuryConfig × Nat} (h : parseLoop w (o :: os) cfg n = .ok r) :
    ∃ cfg1 n1, parseOne w o cfg n = .ok (cfg1, n1) ∧ parseLoop w os cfg1 n1 = .ok r := by
  unfold parseLoop at h
  cases hpo : parseOne w o cfg n with
  | error e => rw [hpo] at h; simp at h
  | ok p =>
    obtain ⟨c, m⟩ := p
    rw [hpo] at h
    exact ⟨c, m, rfl, h⟩

/-- Every `exit` taken inside the option loop goes through `usage`: exit code
`EXIT_ERR`, only prints, and the help text among them. -/
theorem parseOne_error_spec {w : World} {o : CmdOpt} {cfg : MercuryConfig} {n : Nat}
    {es : List Event} {code : Nat} (h : parseOne w o cfg n = .error (es, code)) :
    code = EXIT_ERR ∧ es.all Event.isPrint = true ∧ Event.printMsg mercury_help ∈ es := by
  cases o with
  | select arg =>
    cases arg with
    | none => simp [parseOne] at h
    | some s =>
      simp only [parseOne] at h
      split at h
      · simp at h
      · injection h with h'
        exact usage_pair_spec h'
  | help =>
    simp only [parseOne] at h
    injection h with h'
    injection h' with ha hb
    subst ha
    subst hb
    refine ⟨rfl, ?_, ?_⟩
    · simp only [List.all_cons, Bool.and_eq_true]
      exact ⟨rfl, usage_all_prints none true⟩
    · exact List.mem_cons_of_mem _ (usage_help_mem none true)
  | buffer b =>
    simp only [parseOne] at h
    split at h
    · injection h with h'
      exact usage_pair_spec h'
    · simp at h
  | multiple c =>
    simp only [parseOne] at h
    injection h with h'
    exact usage_pair_spec h'
  | unknown =>
    simp only [parseOne] at h
    injection h with h'
    exact usage_pair_spec h'
  | _ => simp [parseOne] at h

theorem parseLoop_error_spec {w : World} :
    ∀ {opts : List CmdOpt} {cfg : MercuryConfig} {n : Nat} {es : List Event} {code : Nat},
      parseLoop w opts cfg n = .error (es, code) →
      code = EXIT_ERR ∧ es.all Event.isPrint = true ∧ Event.printMsg mercury_help ∈ es := by
  intro opts
  induction opts with
  | nil => intro cfg n es code h; simp [parseLoop] at h
  | cons o os ih =>
    intro cfg n es code h
    unfold parseLoop at h
    cases hpo : parseOne w o cfg n with
    | error r =>
      obtain ⟨es', code'⟩ := r
      rw [hpo] at h
      simp only [Except.error.injEq, Prod.mk.injEq] at h
      exact h.1 ▸ h.2 ▸ parseOne_error_spec hpo
    | ok p =>
      obtain ⟨c, m⟩ := p
      rw [hpo] at h
      exact ih h

/-- The switch increments `num_inputs` exactly on the input options
(`--config`, `-r`, `-d`, `-c`). -/
theorem parseOne_count {w : World} {o : CmdOpt} {cfg : MercuryConfig} {n : Nat}
    {cfg' : MercuryConfig} {n' : Nat} (h : parseOne w o cfg n = .ok (cfg', n')) :
    n' = n + (if countsAsInput o then 1 else 0) := by
  cases o with
  | select arg =>
    cases arg with
    | none => simp [parseOne, countsAsInput] at h ⊢; omega
    | some s =>
      simp only [parseOne] at h
      split at h
      · simp [countsAsInput] at h ⊢; omega
      · simp at h
  | buffer b =>
    simp only [parseOne] at h
    split at h
    · simp at h
    · simp [countsAsInput] at h ⊢; omega
  | _ => simp [parseOne, countsAsInput] at h ⊢ <;> omega

theorem parseLoop_count {w : World} :
    ∀ {opts : List CmdOpt} {cfg : MercuryConfig} {n : Nat} {cfg' : MercuryConfig} {n' : Nat},
      parseLoop w opts cfg n = .ok (cfg', n') → n' = n + opts.countP countsAsInput := by
  intro opts
  induction opts with
  | nil => intro cfg n cfg' n' h; simp [parseLoop] at h; simp [h.2]
  | cons o os ih =>
    intro cfg n cfg' n' h
    obtain ⟨c1, m1, hpo, hrest⟩ := parseLoop_cons_ok h
    have h1 := parseOne_count hpo
    have h2 := ih hrest
    rw [List.countP_cons]
    omega

end Mercury

namespace Mercury

/-- Apart from `--config` (whose effect is the external config-file reader),
one switch iteration can change `fingerprint_filename` only via `-f`,
`write_filename` only via `-w`, and `num_threads` only via `-t`. -/
theorem parseOne_ok_fields {w : World} {o : CmdOpt} {cfg : MercuryConfig} {n : Nat}
    {cfg' : MercuryConfig} {n' : Nat} (h : parseOne w o cfg n = .ok (cfg', n'))
    (hnc : ∀ s, o ≠ CmdOpt.config s) :
    (cfg'.fingerprint_filename = cfg.fingerprint_filename ∨
      ∃ s, o = CmdOpt.fingerprint s ∧ cfg'.fingerprint_filename = some s) ∧
    (cfg'.write_filename = cfg.write_filename ∨
      ∃ s, o = CmdOpt.write s ∧ cfg'.write_filename = some s) ∧
    (cfg'.num_threads = cfg.num_threads ∨
      ∃ t, o = CmdOpt.threads t ∧ cfg'.num_threads = threadsVal t) := by
  cases o with
  | config f => exact absurd rfl (hnc f)
  | select arg =>
    cases arg with
    | none =>
      simp only [parseOne, Except.ok.injEq, Prod.mk.injEq] at h
      rw [← h.1]
      simp
    | some s =>
      simp only [parseOne] at h
      split at h
      · simp only [Except.ok.injEq, Prod.mk.injEq] at h
        rw [← h.1]
        simp
      · simp at h
  | buffer b =>
    simp only [parseOne] at h
    split at h
    · simp at h
    · simp only [Except.ok.injEq, Prod.mk.injEq] at h
      rw [← h.1]
      simp
  | fingerprint s =>
    simp only [parseOne, Except.ok.injEq, Prod.mk.injEq] at h
    rw [← h.1]
    simp
  | write s =>
    simp only [parseOne, Except.ok.injEq, Prod.mk.injEq] at h
    rw [← h.1]
    simp
  | threads t =>
    simp only [parseOne, Except.ok.injEq, Prod.mk.injEq] at h
    rw [← h.1]
    simp
  | _ =>
    simp only [parseOne, Except.ok.injEq, Prod.mk.injEq] at h
    first
    | (rw [← h.1]; simp)
    | exact absurd h (by simp)

/-- Preservation of a config predicate along a completed option loop. -/
theorem parseLoop_inv {w : World} (P : MercuryConfig → Prop) :
    ∀ {opts : List CmdOpt} {cfg : MercuryConfig} {n : Nat} {cfg' : MercuryConfig} {n' : Nat},
      (∀ o ∈ opts, ∀ c2 n2 c3 n3, parseOne w o c2 n2 = .ok (c3, n3) → P c2 → P c3) →
      parseLoop w opts cfg n = .ok (cfg', n') → P cfg → P cfg' := by
  intro opts
  induction opts with
  | nil =>
    intro cfg n cfg' n' _ h hp
    simp only [parseLoop, Except.ok.injEq, Prod.mk.injEq] at h
    rw [← h.1]
    exact hp
  | cons o os ih =>
    intro cfg n cfg' n' hstep h hp
    obtain ⟨c1, m1, hpo, hrest⟩ := parseLoop_cons_ok h
    exact ih (fun o' ho' => hstep o' (List.mem_cons_of_mem _ ho')) hrest
      (hstep o (List.mem_cons_self _ _) _ _ _ _ hpo hp)

theorem parseLoop_fingerprint_stays {w : World} {opts : List CmdOpt} {cfg : MercuryConfig}
    {n : Nat} {cfg' : MercuryConfig} {n' : Nat} (hok : parseLoop w opts cfg n = .ok (cfg', n'))
    (hnc : ∀ s, CmdOpt.config s ∉ opts) (h0 : cfg.fingerprint_filename ≠ none) :
    cfg'.fingerprint_filename ≠ none := by
  refine parseLoop_inv (fun c => c.fingerprint_filename ≠ none) ?_ hok h0
  intro o ho c2 n2 c3 n3 hpo hp
  rcases (parseOne_ok_fields hpo (fun s he => hnc s (he ▸ ho))).1 with he | ⟨s, _, he⟩
  · rw [he]; exact hp
  · rw [he]; simp

theorem parseLoop_write_stays {w : World} {opts : List CmdOpt} {cfg : MercuryConfig}
    {n : Nat} {cfg' : MercuryConfig} {n' : Nat} (hok : parseLoop w opts cfg n = .ok (cfg', n'))
    (hnc : ∀ s, CmdOpt.config s ∉ opts) (h0 : cfg.write_filename ≠ none) :
    cfg'.write_filename ≠ none := by
  refine parseLoop_inv (fun c => c.write_filename ≠ none) ?_ hok h0
  intro o ho c2 n2 c3 n3 hpo hp
  rcases (parseOne_ok_fields hpo (fun s he => hnc s (he ▸ ho))).2.1 with he | ⟨s, _, he⟩
  · rw [he]; exact hp
  · rw [he]; simp

theorem parseLoop_fingerprint_set {w : World} :
    ∀ {opts : List CmdOpt} {cfg : MercuryConfig} {n : Nat} {cfg' : MercuryConfig} {n' : Nat},
      parseLoop w opts cfg n = .ok (cfg', n') → (∀ s, CmdOpt.config s ∉ opts) →
      (∃ s, CmdOpt.fingerprint s ∈ opts) → cfg'.fingerprint_filename ≠ none := by
  intro opts
  induction opts with
  | nil => intro cfg n cfg' n' _ _ hex; simp at hex
  | cons o os ih =>
    intro cfg n cfg' n' hok hnc hex
    obtain ⟨c1, m1, hpo, hrest⟩ := parseLoop_cons_ok hok
    have hnc' : ∀ s, CmdOpt.config s ∉ os := fun s hm => hnc s (List.mem_cons_of_mem _ hm)
    obtain ⟨s, hs⟩ := hex
    rcases List.mem_cons.mp hs with he | hm
    · have hc1 : c1.fingerprint_filename = some s := by
        rw [← he] at hpo
        simp only [parseOne, Except.ok.injEq, Prod.mk.injEq] at hpo
        rw [← hpo.1]
      exact parseLoop_fingerprint_stays hrest hnc' (by simp [hc1])
    · exact ih hrest hnc' ⟨s, hm⟩

theorem parseLoop_write_set {w : World} :
    ∀ {opts : List CmdOpt} {cfg : MercuryConfig} {n : Nat} {cfg' : MercuryConfig} {n' : Nat},
      parseLoop w opts cfg n = .ok (cfg', n') → (∀ s, CmdOpt.config s ∉ opts) →
      (∃ s, CmdOpt.write s ∈ opts) → cfg'.write_filename ≠ none := by
  intro opts
  induction opts with
  | nil => intro cfg n cfg' n' _ _ hex; simp at hex
  | cons o os ih =>
    intro cfg n cfg' n' hok hnc hex
    obtain ⟨c1, m1, hpo, hrest⟩ := parseLoop_cons_ok hok
    have hnc' : ∀ s, CmdOpt.config s ∉ os := fun s hm => hnc s (List.mem_cons_of_mem _ hm)
    obtain ⟨s, hs⟩ := hex
    rcases List.mem_cons.mp hs with he | hm
    · have hc1 : c1.write_filename = some s := by
        rw [← he] at hpo
        simp only [parseOne, Except.ok.injEq, Prod.mk.injEq] at hpo
        rw [← hpo.1]
      exact parseLoop_write_stays hrest hnc' (by simp [hc1])
    · exact ih hrest hnc' ⟨s, hm⟩

theorem parseLoop_fingerprint_none {w : World} {opts : List CmdOpt} {cfg : MercuryConfig}
    {n : Nat} {cfg' : MercuryConfig} {n' : Nat} (hok : parseLoop w opts cfg n = .ok (cfg', n'))
    (hnc : ∀ s, CmdOpt.config s ∉ opts) (hnf : ∀ s, CmdOpt.fingerprint s ∉ opts)
    (h0 : cfg.fingerprint_filename = none) : cfg'.fingerprint_filename = none := by
  refine parseLoop_inv (fun c => c.fingerprint_filename = none) ?_ hok h0
  intro o ho c2 n2 c3 n3 hpo hp
  rcases (parseOne_ok_fields hpo (fun s he => hnc s (he ▸ ho))).1 with he | ⟨s, hos, _⟩
  · rw [he]; exact hp
  · exact absurd (hos ▸ ho) (hnf s)

theorem parseLoop_write_none {w : World} {opts : List CmdOpt} {cfg : MercuryConfig}
    {n : Nat} {cfg' : MercuryConfig} {n' : Nat} (hok : parseLoop w opts cfg n = .ok (cfg', n'))
    (hnc : ∀ s, CmdOpt.config s ∉ opts) (hnw : ∀ s, CmdOpt.write s ∉ opts)
    (h0 : cfg.write_filename = none) : cfg'.write_filename = none := by
  refine parseLoop_inv (fun c => c.write_filename = none) ?_ hok h0
  intro o ho c2 n2 c3 n3 hpo hp
  rcases (parseOne_ok_fields hpo (fun s he => hnc s (he ▸ ho))).2.1 with he | ⟨s, hos, _⟩
  · rw [he]; exact hp
  · exact absurd (hos ▸ ho) (hnw s)

theorem parseLoop_threads_stays {w : World} {opts : List CmdOpt} {cfg : MercuryConfig}
    {n : Nat} {cfg' : MercuryConfig} {n' : Nat} (hok : parseLoop w opts cfg n = .ok (cfg', n'))
    (hnc : ∀ s, CmdOpt.config s ∉ opts)
    (hall : ∀ t, CmdOpt.threads t ∈ opts → threadsVal t ≠ 1)
    (h0 : cfg.num_threads ≠ 1) : cfg'.num_threads ≠ 1 := by
  refine parseLoop_inv (fun c => c.num_threads ≠ 1) ?_ hok h0
  intro o ho c2 n2 c3 n3 hpo hp
  rcases (parseOne_ok_fields hpo (fun s he => hnc s (he ▸ ho))).2.2 with he | ⟨t, hot, he⟩
  · rw [he]; exact hp
  · rw [he]; exact hall t (hot ▸ ho)

theorem parseLoop_threads_set {w : World} :
    ∀ {opts : List CmdOpt} {cfg : MercuryConfig} {n : Nat} {cfg' : MercuryConfig} {n' : Nat},
      parseLoop w opts cfg n = .ok (cfg', n') → (∀ s, CmdOpt.config s ∉ opts) →
      (∀ t, CmdOpt.threads t ∈ opts → threadsVal t ≠ 1) →
      (∃ t, CmdOpt.threads t ∈ opts) → cfg'.num_threads ≠ 1 := by
  intro opts
  induction opts with
  | nil => intro cfg n cfg' n' _ _ _ hex; simp at hex
  | cons o os ih =>
    intro cfg n cfg' n' hok hnc hall hex
    obtain ⟨c1, m1, hpo, hrest⟩ := parseLoop_cons_ok hok
    have hnc' : ∀ s, CmdOpt.config s ∉ os := fun s hm => hnc s (List.mem_cons_of_mem _ hm)
    have hall' : ∀ t, CmdOpt.threads t ∈ os → threadsVal t ≠ 1 :=
      fun t hm => hall t (List.mem_cons_of_mem _ hm)
    obtain ⟨t, ht⟩ := hex
    rcases List.mem_cons.mp ht with he | hm
    · have hc1 : c1.num_threads = threadsVal t := by
        rw [← he] at hpo
        simp only [parseOne, Except.ok.injEq, Prod.mk.injEq] at hpo
        rw [← hpo.1]
      exact parseLoop_threads_stays hrest hnc' hall' (by rw [hc1]; exact hall t ht)
    · exact ih hrest hnc' hall' ⟨t, hm⟩

theorem parseLoop_threads_cpu {w : World} :
    ∀ {opts : List CmdOpt} {cfg : MercuryConfig} {n : Nat} {cfg' : MercuryConfig} {n' : Nat},
      parseLoop w opts cfg n = .ok (cfg', n') → (∀ s, CmdOpt.config s ∉ opts) →
      (∀ t, CmdOpt.threads t ∈ opts → t = "cpu") →
      (∃ t, CmdOpt.threads t ∈ opts) → cfg'.num_threads = -1 := by
  intro opts
  induction opts with
  | nil => intro cfg n cfg' n' _ _ _ hex; simp at hex
  | cons o os ih =>
    intro cfg n cfg' n' hok hnc hall hex
    obtain ⟨c1, m1, hpo, hrest⟩ := parseLoop_cons_ok hok
    have hnc' : ∀ s, CmdOpt.config s ∉ os := fun s hm => hnc s (List.mem_cons_of_mem _ hm)
    have hall' : ∀ t, CmdOpt.threads t ∈ os → t = "cpu" :=
      fun t hm => hall t (List.mem_cons_of_mem _ hm)
    have hstay : ∀ {c2 : MercuryConfig} {m2 : Nat}, parseLoop w os c2 m2 = .ok (cfg', n') →
        c2.num_threads = -1 → cfg'.num_threads = -1 := by
      intro c2 m2 hrest2 h02
      refine parseLoop_inv (fun c => c.num_threads = -1) ?_ hrest2 h02
      intro o' ho' d2 k2 d3 k3 hpo' hp
      rcases (parseOne_ok_fields hpo' (fun s he => hnc' s (he ▸ ho'))).2.2 with he | ⟨t, hot, he⟩
      · rw [he]; exact hp
      · rw [he, hall' t (hot ▸ ho'), threadsVal]; simp
    obtain ⟨t, ht⟩ := hex
    rcases List.mem_cons.mp ht with he | hm
    · have hc1 : c1.num_threads = threadsVal t := by
        rw [← he] at hpo
        simp only [parseOne, Except.ok.injEq, Prod.mk.injEq] at hpo
        rw [← hpo.1]
      refine hstay hrest ?_
      rw [hc1, hall t ht, threadsVal]
      simp
    · exact ih hrest hnc' hall' ⟨t, hm⟩

end Mercury

namespace Mercury

/-! ### Evaluated branches of the configuration checks -/

/-- The run has exited with a non-zero code after printing the usage text,
without performing any thread-creating event (and so, since output files are
only ever created by the output-coordinator thread or the dispatch calls,
without creating any output file). -/
def FailsBeforeSpawn (r : List Event × Nat) : Prop :=
  r.snd ≠ 0 ∧ Event.printMsg mercury_help ∈ r.fst ∧ spawnFree r.fst = true

theorem usage_failsBeforeSpawn (m : Option String) (ext : Bool) :
    FailsBeforeSpawn (usage m ext) :=
  ⟨by rw [usage_snd]; simp [EXIT_ERR], usage_help_mem m ext, usage_spawnFree m ext⟩

theorem mainAfterParse_eq_noinput (cfg : MercuryConfig) (w : World) :
    mainAfterParse cfg 0 w =
      usage (some "neither read [r] nor capture [c] specified on command line") false := by
  simp [mainAfterParse]

theorem mainAfterParse_eq_incompat (cfg : MercuryConfig) (n : Nat) (w : World) (h : 1 < n) :
    mainAfterParse cfg n w =
      usage (some "incompatible arguments read [r] and capture [c] specified on command line") false := by
  unfold mainAfterParse
  rw [if_neg (by omega), if_pos h]

theorem mainAfterParse_eq_both (cfg : MercuryConfig) (w : World)
    (hb : cfg.fingerprint_filename ≠ none ∧ cfg.write_filename ≠ none) :
    mainAfterParse cfg 1 w =
      usage (some "both fingerprint [f] and write [w] specified on command line") false := by
  unfold mainAfterParse
  rw [if_neg (by omega), if_neg (by omega), if_pos hb]

theorem mainAfterParse_eq_threads (cfg : MercuryConfig) (w : World)
    (hb : ¬ (cfg.fingerprint_filename ≠ none ∧ cfg.write_filename ≠ none))
    (ht : cfg.num_threads ≠ 1 ∧ cfg.fingerprint_filename = none ∧ cfg.write_filename = none) :
    mainAfterParse cfg 1 w =
      usage (some "multiple threads [t] requested, but neither fingerprint [f] no write [w] specified on command line") false := by
  unfold mainAfterParse
  rw [if_neg (by omega), if_neg (by omega), if_neg hb, if_pos ht]

theorem mainAfterParse_eq_loop (cfg : MercuryConfig) (w : World)
    (hb : ¬ (cfg.fingerprint_filename ≠ none ∧ cfg.write_filename ≠ none))
    (ht : ¬ (cfg.num_threads ≠ 1 ∧ cfg.fingerprint_filename = none ∧ cfg.write_filename = none))
    (ha : ¬ (cfg.analysis ≠ 0 ∧ ¬ w.analysis_init_ok = true))
    (hl : cfg.loop_count < 1) :
    mainAfterParse cfg 1 w = usage (some "Invalid loop count, it should be >= 1") false := by
  unfold mainAfterParse
  rw [if_neg (by omega), if_neg (by omega), if_neg hb, if_neg ht, if_neg ha, if_pos hl]

theorem mainAfterParse_eq_body (cfg : MercuryConfig) (w : World)
    (hb : ¬ (cfg.fingerprint_filename ≠ none ∧ cfg.write_filename ≠ none))
    (ht : ¬ (cfg.num_threads ≠ 1 ∧ cfg.fingerprint_filename = none ∧ cfg.write_filename = none))
    (ha : ¬ (cfg.analysis ≠ 0 ∧ ¬ w.analysis_init_ok = true))
    (hl : ¬ cfg.loop_count < 1) :
    mainAfterParse cfg 1 w = mainBody cfg w := by
  unfold mainAfterParse
  rw [if_neg (by omega), if_neg (by omega), if_neg hb, if_neg ht, if_neg ha, if_neg hl]

end Mercury

namespace Mercury

theorem mercuryMain_ok {w : World} {opts : List CmdOpt} {cfg : MercuryConfig} {n : Nat}
    (h : parseLoop w opts mercury_config_init 0 = .ok (cfg, n)) :
    mercuryMain opts w = mainAfterParse cfg n w := by
  unfold mercuryMain
  rw [h]

theorem mercuryMain_err {w : World} {opts : List CmdOpt} {es : List Event} {code : Nat}
    (h : parseLoop w opts mercury_config_init 0 = .error (es, code)) :
    mercuryMain opts w = (es, code) := by
  unfold mercuryMain
  rw [h]

theorem parse_error_failsBeforeSpawn {w : World} {opts : List CmdOpt} {es : List Event}
    {code : Nat} (h : parseLoop w opts mercury_config_init 0 = .error (es, code)) :
    FailsBeforeSpawn (es, code) := by
  obtain ⟨h1, h2, h3⟩ := parseLoop_error_spec h
  exact ⟨by simp [h1, EXIT_ERR], h3, spawnFree_of_prints h2⟩

/-- C3: a command line that supplies both a capture interface and a read
file, or that supplies no input at all, makes the process print the usage
text and exit non-zero, before any thread is spawned and before any output
file can be created (`mercury.c:456-461`). -/
theorem C3_exactly_one_input (opts : List CmdOpt) (w : World)
    (h : ((∃ s, CmdOpt.capture s ∈ opts) ∧ (∃ s, CmdOpt.read s ∈ opts)) ∨
      (∀ o ∈ opts, countsAsInput o = false)) :
    FailsBeforeSpawn (mercuryMain opts w) := by
  cases hp : parseLoop w opts mercury_config_init 0 with
  | error r =>
    obtain ⟨es, code⟩ := r
    rw [mercuryMain_err hp]
    exact parse_error_failsBeforeSpawn hp
  | ok p =>
    obtain ⟨cfg, n⟩ := p
    rw [mercuryMain_ok hp]
    have hcount := parseLoop_count hp
    rcases h with ⟨⟨s1, hs1⟩, ⟨s2, hs2⟩⟩ | hnone
    · have h2 : 2 ≤ opts.countP countsAsInput :=
        countP_two_of_mem countsAsInput opts _ _ hs1 hs2 (by simp)
          (by simp [countsAsInput]) (by simp [countsAsInput])
      rw [mainAfterParse_eq_incompat cfg n w (by omega)]
      exact usage_failsBeforeSpawn _ _
    · have hz : opts.countP countsAsInput = 0 :=
        List.countP_eq_zero.mpr (fun o ho => by simp [hnone o ho])
      have hn : n = 0 := by omega
      rw [hn, mainAfterParse_eq_noinput cfg w]
      exact usage_failsBeforeSpawn _ _

/-- C6: a command line that supplies both a fingerprint output file (`-f`)
and a pcap write file (`-w`) — with no `--config` option, whose external
file effects are unmodelled — makes the process print the usage text and
exit non-zero before any thread is spawned (`mercury.c:462-464`). -/
theorem C6_outputs_exclusive (opts : List CmdOpt) (w : World)
    (hf : ∃ s, CmdOpt.fingerprint s ∈ opts) (hw : ∃ s, CmdOpt.write s ∈ opts)
    (hnc : ∀ s, CmdOpt.config s ∉ opts) :
    FailsBeforeSpawn (mercuryMain opts w) := by
  cases hp : parseLoop w opts mercury_config_init 0 with
  | error r =>
    obtain ⟨es, code⟩ := r
    rw [mercuryMain_err hp]
    exact parse_error_failsBeforeSpawn hp
  | ok p =>
    obtain ⟨cfg, n⟩ := p
    rw [mercuryMain_ok hp]
    have hfing := parseLoop_fingerprint_set hp hnc hf
    have hwrit := parseLoop_write_set hp hnc hw
    match n with
    | 0 =>
      rw [mainAfterParse_eq_noinput cfg w]
      exact usage_failsBeforeSpawn _ _
    | 1 =>
      rw [mainAfterParse_eq_both cfg w ⟨hfing, hwrit⟩]
      exact usage_failsBeforeSpawn _ _
    | (k + 2) =>
      rw [mainAfterParse_eq_incompat cfg (k + 2) w (by omega)]
      exact usage_failsBeforeSpawn _ _

/-- C9: a command line that requests a thread count other than 1 (every
`-t` argument given parses to a value other than 1, and at least one is
given) while supplying neither `-f` nor `-w` (and no `--config`) makes the
process print the usage text and exit non-zero before any thread is spawned
(`mercury.c:465-467`). -/
theorem C9_threads_need_output (opts : List CmdOpt) (w : World)
    (hex : ∃ t, CmdOpt.threads t ∈ opts)
    (hall : ∀ t, CmdOpt.threads t ∈ opts → threadsVal t ≠ 1)
    (hnf : ∀ s, CmdOpt.fingerprint s ∉ opts) (hnw : ∀ s, CmdOpt.write s ∉ opts)
    (hnc : ∀ s, CmdOpt.config s ∉ opts) :
    FailsBeforeSpawn (mercuryMain opts w) := by
  cases hp : parseLoop w opts mercury_config_init 0 with
  | error r =>
    obtain ⟨es, code⟩ := r
    rw [mercuryMain_err hp]
    exact parse_error_failsBeforeSpawn hp
  | ok p =>
    obtain ⟨cfg, n⟩ := p
    rw [mercuryMain_ok hp]
    have hfing : cfg.fingerprint_filename = none := parseLoop_fingerprint_none hp hnc hnf rfl
    have hwrit : cfg.write_filename = none := parseLoop_write_none hp hnc hnw rfl
    have hth : cfg.num_threads ≠ 1 := parseLoop_threads_set hp hnc hall hex
    match n with
    | 0 =>
      rw [mainAfterParse_eq_noinput cfg w]
      exact usage_failsBeforeSpawn _ _
    | 1 =>
      rw [mainAfterParse_eq_threads cfg w (by simp [hfing]) ⟨hth, hfing, hwrit⟩]
      exact usage_failsBeforeSpawn _ _
    | (k + 2) =>
      rw [mainAfterParse_eq_incompat cfg (k + 2) w (by omega)]
      exact usage_failsBeforeSpawn _ _

/-- C10: `--config` and `--directory` both count toward the
exactly-one-input check: any command line that parses to completion and
contains two input-counting options at distinct positions, one of them
`--config` or `--directory`, exits non-zero with the `incompatible
arguments` usage message before any thread is spawned
(`mercury.c:283-290,306-313,456-461`). -/
theorem C10_config_directory_count (opts : List CmdOpt) (w : World)
    (cfg : MercuryConfig) (n : Nat)
    (hok : parseLoop w opts mercury_config_init 0 = .ok (cfg, n))
    (h : ∃ i j : Nat, ∃ hi : i < opts.length, ∃ hj : j < opts.length,
      i ≠ j ∧ countsAsInput (opts.get ⟨i, hi⟩) = true ∧
      countsAsInput (opts.get ⟨j, hj⟩) = true ∧ isConfigOrDir (opts.get ⟨i, hi⟩) = true) :
    FailsBeforeSpawn (mercuryMain opts w) ∧
    Event.printMsg ("error: " ++ "incompatible arguments read [r] and capture [c] specified on command line")
      ∈ (mercuryMain opts w).fst := by
  obtain ⟨i, j, hi, hj, hij, hpi, hpj, _⟩ := h
  have hcount := parseLoop_count hok
  have h2 : 2 ≤ opts.countP countsAsInput := countP_two_of_get countsAsInput opts i j hi hj hij hpi hpj
  rw [mercuryMain_ok hok, mainAfterParse_eq_incompat cfg n w (by omega)]
  exact ⟨usage_failsBeforeSpawn _ _, usage_err_mem _ _⟩

end Mercury

namespace Mercury

/-- C4: a configuration with a single input and `loop_count < 1` that passes
the earlier output/thread checks is rejected with the invalid-replay-count
usage message and a non-zero exit before any pipeline thread is started
(`mercury.c:475-484`). -/
theorem C4_invalid_loop_count (cfg : MercuryConfig) (w : World)
    (hb : ¬ (cfg.fingerprint_filename ≠ none ∧ cfg.write_filename ≠ none))
    (ht : ¬ (cfg.num_threads ≠ 1 ∧ cfg.fingerprint_filename = none ∧ cfg.write_filename = none))
    (ha : ¬ (cfg.analysis ≠ 0 ∧ ¬ w.analysis_init_ok = true))
    (hl : cfg.loop_count < 1) :
    FailsBeforeSpawn (mainAfterParse cfg 1 w) ∧
    Event.printMsg ("error: " ++ "Invalid loop count, it should be >= 1")
      ∈ (mainAfterParse cfg 1 w).fst := by
  rw [mainAfterParse_eq_loop cfg w hb ht ha hl]
  exact ⟨usage_failsBeforeSpawn _ _, usage_err_mem _ _⟩

theorem spawnFree_append {a b : List Event} (ha : spawnFree a = true)
    (hb : spawnFree b = true) : spawnFree (a ++ b) = true := by
  simp only [spawnFree] at *
  simp [List.all_append, ha, hb]

def loopCountEvents (cfg : MercuryConfig) : List Event :=
  if 1 < cfg.loop_count then [Event.printMsg ("Loop count: " ++ toString cfg.loop_count)] else []

theorem loopCountEvents_spawnFree (cfg : MercuryConfig) : spawnFree (loopCountEvents cfg) = true := by
  unfold loopCountEvents
  split <;> simp [spawnFree, Event.spawnsThread]

theorem mainBody_adaptive_bad (cfg : MercuryConfig) (w : World) (hA : cfg.adaptive > 0)
    (hbad : cfg.write_filename = none ∨ cfg.capture_interface = none) :
    mainBody cfg w =
      (loopCountEvents cfg ++
        (usage (some "The option --adaptive requires options -c capture interface and -w pcap file.") false).fst,
       EXIT_ERR) := by
  simp only [mainBody, loopCountEvents]
  rw [if_pos hA, if_pos hbad]

theorem mainBody_adaptive_good (cfg : MercuryConfig) (w : World) (hA : cfg.adaptive > 0)
    (hw : cfg.write_filename ≠ none) (hc : cfg.capture_interface ≠ none) :
    mainBody cfg w =
      (loopCountEvents cfg ++ Event.setPercentAccept 30 :: (mainTail cfg w).fst,
       (mainTail cfg w).snd) := by
  simp only [mainBody, loopCountEvents]
  rw [if_pos hA, if_neg (by simp [hw, hc])]

theorem mainBody_no_adaptive (cfg : MercuryConfig) (w : World) (hA : ¬ cfg.adaptive > 0) :
    mainBody cfg w = (loopCountEvents cfg ++ (mainTail cfg w).fst, (mainTail cfg w).snd) := by
  simp only [mainBody, loopCountEvents]
  rw [if_neg hA]

/-- C5: under a configuration that reaches the `--adaptive` check
(`mercury.c:486-493`), if `--adaptive` is set without both a capture
interface and a pcap write file the process prints the usage message and
exits non-zero before any thread is spawned; if both are present,
`set_percent_accept(30)` runs before any thread-creating event. -/
theorem C5_adaptive_requires_capture_write (cfg : MercuryConfig) (w : World)
    (hb : ¬ (cfg.fingerprint_filename ≠ none ∧ cfg.write_filename ≠ none))
    (ht : ¬ (cfg.num_threads ≠ 1 ∧ cfg.fingerprint_filename = none ∧ cfg.write_filename = none))
    (ha : ¬ (cfg.analysis ≠ 0 ∧ ¬ w.analysis_init_ok = true))
    (hl : ¬ cfg.loop_count < 1)
    (hA : cfg.adaptive > 0) :
    ((cfg.write_filename = none ∨ cfg.capture_interface = none) →
      FailsBeforeSpawn (mainAfterParse cfg 1 w) ∧
      Event.printMsg ("error: " ++ "The option --adaptive requires options -c capture interface and -w pcap file.")
        ∈ (mainAfterParse cfg 1 w).fst) ∧
    (cfg.write_filename ≠ none → cfg.capture_interface ≠ none →
      ∃ post, (mainAfterParse cfg 1 w).fst =
          loopCountEvents cfg ++ Event.setPercentAccept 30 :: post ∧
        spawnFree (loopCountEvents cfg) = true) := by
  rw [mainAfterParse_eq_body cfg w hb ht ha hl]
  constructor
  · intro hbad
    rw [mainBody_adaptive_bad cfg w hA hbad]
    refine ⟨⟨?_, ?_, ?_⟩, ?_⟩
    · simp [EXIT_ERR]
    · exact List.mem_append_right _ (usage_help_mem _ _)
    · exact spawnFree_append (loopCountEvents_spawnFree cfg) (usage_spawnFree _ _)
    · exact List.mem_append_right _ (usage_err_mem _ _)
  · intro hw hc
    rw [mainBody_adaptive_good cfg w hA hw hc]
    exact ⟨(mainTail cfg w).fst, rfl, loopCountEvents_spawnFree cfg⟩

end Mercury

namespace Mercury

def Event.isReaderSpawn : Event → Bool
  | .spawnReaderThread => true
  | _ => false

theorem all_not_append {p : Event → Bool} {a b : List Event}
    (ha : a.all (fun x => ! p x) = true) (hb : b.all (fun x => ! p x) = true) :
    (a ++ b).all (fun x => ! p x) = true := by
  simp [List.all_append, ha, hb]

theorem all_not_mem {p : Event → Bool} {es : List Event} {e : Event}
    (h : es.all (fun x => ! p x) = true) (he : p e = true) : e ∉ es := by
  intro hm
  rw [List.all_eq_true] at h
  have h2 := h e hm
  rw [he] at h2
  simp at h2

/-- Evaluation of `pcap_reader_thread_context_init_from_config` when
`pcap_file_open` fails: the open error is printed and `status_err` returned
(`mercury.c:80-84`). -/
theorem pcap_init_open_fail (cfg : MercuryConfig) (w : World) (f : String)
    (hread : cfg.read_filename = some f) (hpk : w.pkt_proc_new_ok = true)
    (hfa : w.filename_append_status = Status.ok) (hpo : w.pcap_open_status = Status.err) :
    pcap_reader_thread_context_init_from_config cfg w =
      ([Event.printMsg ("could not open pcap input file " ++ f)], Status.err) := by
  simp [pcap_reader_thread_context_init_from_config, hpk, hread, hfa, hpo]

/-- When the reader-context init fails, `open_and_dispatch` prints via
`perror` and returns the error status instead of exiting
(`mercury.c:113-117`). -/
theorem open_and_dispatch_init_fail (cfg : MercuryConfig) (w : World)
    {es : List Event}
    (hinit : pcap_reader_thread_context_init_from_config cfg w = (es, Status.err)) :
    open_and_dispatch cfg w =
      (es ++ [Event.printErr "could not initialize pcap reader thread context"],
       Except.ok Status.err) := by
  simp [open_and_dispatch, hinit]

/-- The success path of `open_and_dispatch`: broadcast the start condition,
create and join the reader thread, close the file, and print the statistics
line exactly when both a write file and verbosity are configured
(`mercury.c:119-154`). -/
theorem open_and_dispatch_run (cfg : MercuryConfig) (w : World) (f : String)
    (hread : cfg.read_filename = some f) (hpk : w.pkt_proc_new_ok = true)
    (hfa : w.filename_append_status = Status.ok) (hpo : w.pcap_open_status = Status.ok)
    (hbr : w.broadcast_ret = 0) (hpc : w.pthread_create_ret = 0) :
    open_and_dispatch cfg w =
      ([Event.broadcastStart, Event.spawnReaderThread] ++
        (if w.dispatch_status ≠ Status.ok then [Event.printMsg "error in pcap file dispatch"] else []) ++
        [Event.joinReaderThread, Event.closePcapFile] ++
        (if cfg.write_filename ≠ none ∧ cfg.verbosity ≠ 0 then
          [Event.printStats w.packets_written w.bytes_written w.nano_seconds] else []),
       Except.ok Status.ok) := by
  have hinit : pcap_reader_thread_context_init_from_config cfg w = ([], Status.ok) := by
    simp [pcap_reader_thread_context_init_from_config, hpk, hread, hfa, hpo]
  simp [open_and_dispatch, hinit, hbr, hpc]

/-- The read branch of `main` (`mercury.c:528-536`) followed by the
shutdown tail, when `output_thread_init` succeeds and `open_and_dispatch`
returns (its status is discarded and `main` returns 0). -/
theorem mainDispatch_read_ok (cfg : MercuryConfig) (w : World) {f : String}
    {es : List Event} {st : Status}
    (hcap : cfg.capture_interface = none) (hread : cfg.read_filename = some f)
    (houti : w.output_thread_init_ret = 0)
    (hd : open_and_dispatch cfg w = (es, Except.ok st)) :
    mainDispatch cfg w = (Event.outputThreadInit :: es ++ shutdownSuffix, 0) := by
  simp [mainDispatch, hcap, hread, houti, hd]

theorem mainTail_run (cfg : MercuryConfig) (w : World) :
    mainTail cfg w =
      ((if ¬ w.setup_signal_ok then [Event.printErr "error while setting up signal handlers"] else []) ++
        (if cfg.num_threads = -1 then
          [Event.foundCpus w.nprocs (if cfg.num_threads = -1 then (w.nprocs : Int) else cfg.num_threads)]
         else []) ++ (mainDispatch cfg w).fst,
       (mainDispatch cfg w).snd) := rfl

/-- C2 counterexample world: every external call succeeds except
`pcap_file_open`. -/
def wAllOk : World where
  nprocs := 4
  analysis_init_ok := true
  setup_signal_ok := true
  output_thread_init_ret := 0
  pkt_proc_new_ok := true
  filename_append_status := Status.ok
  pcap_open_status := Status.ok
  broadcast_ret := 0
  pthread_create_ret := 0
  dispatch_status := Status.ok
  bytes_written := 21000
  packets_written := 30
  nano_seconds := 5000
  readConfigFile := fun _ c => c

/-- C2 is false as stated: in the run `mercury -r in.pcap` where
`pcap_file_open` fails, the open error is reported but `main` discards the
status returned by `open_and_dispatch` (`mercury.c:535`) and the process
exits with code 0, not a non-zero code. -/
theorem C2_counterexample :
    (mercuryMain [CmdOpt.read "in.pcap"] { wAllOk with pcap_open_status := Status.err }).snd = 0 ∧
    Event.printMsg ("could not open pcap input file " ++ "in.pcap")
      ∈ (mercuryMain [CmdOpt.read "in.pcap"] { wAllOk with pcap_open_status := Status.err }).fst := by
  decide

/-- C2 amended: in every file-replay run that reaches the dispatch branch
and in which `pcap_file_open` fails, the process prints the open error and
the reader-context error, performs no reader-thread spawn, and exits with
code 0 — the error status is propagated to `main` but discarded there
(`mercury.c:75-85,113-117,535,549`). -/
theorem C2_pcap_open_failure (cfg : MercuryConfig) (w : World) (f : String)
    (hb : ¬ (cfg.fingerprint_filename ≠ none ∧ cfg.write_filename ≠ none))
    (ht : ¬ (cfg.num_threads ≠ 1 ∧ cfg.fingerprint_filename = none ∧ cfg.write_filename = none))
    (ha : ¬ (cfg.analysis ≠ 0 ∧ ¬ w.analysis_init_ok = true))
    (hl : ¬ cfg.loop_count < 1) (hA : ¬ cfg.adaptive > 0)
    (hcap : cfg.capture_interface = none) (hread : cfg.read_filename = some f)
    (houti : w.output_thread_init_ret = 0) (hpk : w.pkt_proc_new_ok = true)
    (hfa : w.filename_append_status = Status.ok) (hpo : w.pcap_open_status = Status.err) :
    (mainAfterParse cfg 1 w).snd = 0 ∧
    Event.printMsg ("could not open pcap input file " ++ f) ∈ (mainAfterParse cfg 1 w).fst ∧
    Event.printErr "could not initialize pcap reader thread context" ∈ (mainAfterParse cfg 1 w).fst ∧
    Event.spawnReaderThread ∉ (mainAfterParse cfg 1 w).fst := by
  have hod := open_and_dispatch_init_fail cfg w (pcap_init_open_fail cfg w f hread hpk hfa hpo)
  have hmd := mainDispatch_read_ok cfg w hcap hread houti hod
  rw [mainAfterParse_eq_body cfg w hb ht ha hl, mainBody_no_adaptive cfg w hA,
    mainTail_run, hmd]
  refine ⟨rfl, by simp, by simp, ?_⟩
  have hall : ((loopCountEvents cfg ++
      ((if ¬ w.setup_signal_ok then [Event.printErr "error while setting up signal handlers"] else []) ++
        (if cfg.num_threads = -1 then
          [Event.foundCpus w.nprocs (if cfg.num_threads = -1 then (w.nprocs : Int) else cfg.num_threads)]
         else []) ++
        (Event.outputThreadInit ::
          ([Event.printMsg ("could not open pcap input file " ++ f),
            Event.printErr "could not initialize pcap reader thread context"] ++ shutdownSuffix)))).all
      (fun x => ! x.isReaderSpawn)) = true := by
    refine all_not_append ?_ (all_not_append (all_not_append ?_ ?_) ?_)
    · unfold loopCountEvents
      split <;> simp [Event.isReaderSpawn]
    · split <;> simp [Event.isReaderSpawn]
    · split <;> simp [Event.isReaderSpawn]
    · simp [Event.isReaderSpawn, shutdownSuffix]
  exact all_not_mem hall (by simp [Event.isReaderSpawn])

end Mercury

namespace Mercury

/-- The configuration produced by the option loop, when it completes. -/
def parsedConfig (opts : List CmdOpt) (w : World) : Option MercuryConfig :=
  (parseLoop w opts mercury_config_init 0).toOption.map Prod.fst

/-- C7 is false as stated: the run `mercury -r in.pcap -v` parses to a
verbose configuration, the file-replay pipeline terminates normally (exit
code 0), yet no statistics line is printed — the report at `mercury.c:149`
additionally requires a pcap write file (`cfg->write_filename`). -/
theorem C7_counterexample :
    parsedConfig [CmdOpt.read "in.pcap", CmdOpt.verbose] wAllOk =
      some { mercury_config_init with read_filename := some "in.pcap", verbosity := 1 } ∧
    (mercuryMain [CmdOpt.read "in.pcap", CmdOpt.verbose] wAllOk).snd = 0 ∧
    (mercuryMain [CmdOpt.read "in.pcap", CmdOpt.verbose] wAllOk).fst.all
      (fun e => ! e.isStats) = true := by
  decide

/-- C7 amended: if verbose mode AND a pcap write file are configured, then
upon termination of the file-replay pipeline the final statistics (packets
written, bytes written, elapsed nanoseconds, taken from the packet
processor's counters; the byte rate is computed from them) are reported
(`mercury.c:137-152`). -/
theorem C7_verbose_stats (cfg : MercuryConfig) (w : World) (f : String)
    (hb : ¬ (cfg.fingerprint_filename ≠ none ∧ cfg.write_filename ≠ none))
    (ht : ¬ (cfg.num_threads ≠ 1 ∧ cfg.fingerprint_filename = none ∧ cfg.write_filename = none))
    (ha : ¬ (cfg.analysis ≠ 0 ∧ ¬ w.analysis_init_ok = true))
    (hl : ¬ cfg.loop_count < 1) (hA : ¬ cfg.adaptive > 0)
    (hcap : cfg.capture_interface = none) (hread : cfg.read_filename = some f)
    (houti : w.output_thread_init_ret = 0) (hpk : w.pkt_proc_new_ok = true)
    (hfa : w.filename_append_status = Status.ok) (hpo : w.pcap_open_status = Status.ok)
    (hbr : w.broadcast_ret = 0) (hpc : w.pthread_create_ret = 0)
    (hw : cfg.write_filename ≠ none) (hv : cfg.verbosity ≠ 0) :
    Event.printStats w.packets_written w.bytes_written w.nano_seconds
      ∈ (mainAfterParse cfg 1 w).fst := by
  have hod := open_and_dispatch_run cfg w f hread hpk hfa hpo hbr hpc
  have hmd := mainDispatch_read_ok cfg w hcap hread houti hod
  rw [mainAfterParse_eq_body cfg w hb ht ha hl, mainBody_no_adaptive cfg w hA,
    mainTail_run, hmd]
  simp [hw, hv]

/-- C8: when every `-t` option on the command line carries the value `cpu`
(and one does, no `--config` is given, and the configuration passes the
startup checks), the resolved worker-thread count equals the processor
count reported by `get_nprocs`, as witnessed by the `found %d CPU(s),
creating %d thread(s)` report of `mercury.c:503-507` carrying
`w.nprocs` for both fields. -/
theorem C8_threads_cpu (opts : List CmdOpt) (w : World) (cfg : MercuryConfig) (n : Nat)
    (hok : parseLoop w opts mercury_config_init 0 = .ok (cfg, n))
    (hnc : ∀ s, CmdOpt.config s ∉ opts)
    (hcpu : CmdOpt.threads "cpu" ∈ opts)
    (hall : ∀ t, CmdOpt.threads t ∈ opts → t = "cpu")
    (hn : n = 1)
    (hb : ¬ (cfg.fingerprint_filename ≠ none ∧ cfg.write_filename ≠ none))
    (hout : cfg.fingerprint_filename ≠ none ∨ cfg.write_filename ≠ none)
    (ha : ¬ (cfg.analysis ≠ 0 ∧ ¬ w.analysis_init_ok = true))
    (hl : ¬ cfg.loop_count < 1)
    (hA : cfg.adaptive = 0 ∨ (cfg.write_filename ≠ none ∧ cfg.capture_interface ≠ none)) :
    Event.foundCpus w.nprocs (w.nprocs : Int) ∈ (mercuryMain opts w).fst := by
  have hth : cfg.num_threads = -1 := parseLoop_threads_cpu hok hnc hall ⟨"cpu", hcpu⟩
  have ht : ¬ (cfg.num_threads ≠ 1 ∧ cfg.fingerprint_filename = none ∧ cfg.write_filename = none) := by
    rcases hout with h | h <;> simp [h]
  rw [mercuryMain_ok hok, hn, mainAfterParse_eq_body cfg w hb ht ha hl]
  have hmem : Event.foundCpus w.nprocs (w.nprocs : Int) ∈ (mainTail cfg w).fst := by
    rw [mainTail_run]
    simp [hth]
  rcases Nat.eq_zero_or_pos cfg.adaptive with hz | hpos
  · rw [mainBody_no_adaptive cfg w (by omega)]
    exact List.mem_append_right _ hmem
  · rcases hA with h0 | ⟨hw, hc⟩
    · omega
    · rw [mainBody_adaptive_good cfg w hpos hw hc]
      exact List.mem_append_right _ (List.mem_cons_of_mem _ hmem)

end Mercury

namespace Mercury

/-! ### Concrete instances -/

def cfgRead : MercuryConfig := { mercury_config_init with read_filename := some "in.pcap" }

def cfgReadLoop0 : MercuryConfig := { cfgRead with loop_count := 0 }

def cfgAdaptiveBoth : MercuryConfig :=
  { mercury_config_init with
    capture_interface := some "eth0"
    write_filename := some "out.pcap"
    adaptive := 1 }

def cfgReadWriteVerbose : MercuryConfig :=
  { cfgRead with write_filename := some "out.pcap", verbosity := 1 }

def wPcapFail : World := { wAllOk with pcap_open_status := Status.err }

theorem C1_shutdown_protocol_witness :
    cfgRead.capture_interface = none ∧
    ((∀ pre post, (mainAfterParse cfgRead 1 wAllOk).fst = pre ++ Event.setStopFlag :: post →
        Event.spawnReaderThread ∉ post ∧ Event.joinReaderThread ∉ post) ∧
     (∀ pre post, (mainAfterParse cfgRead 1 wAllOk).fst = pre ++ Event.joinOutputThread :: post →
        Event.setStopFlag ∈ pre ∧ Event.joinReaderThread ∉ post) ∧
     (∀ pre post, (mainAfterParse cfgRead 1 wAllOk).fst = pre ++ Event.destroyQueues :: post →
        Event.joinOutputThread ∈ pre ∧ Event.joinReaderThread ∉ post ∧
        Event.spawnReaderThread ∉ post)) :=
  ⟨by decide, C1_shutdown_protocol cfgRead 1 wAllOk (by decide)⟩

theorem C2_pcap_open_failure_witness :
    cfgRead.read_filename = some "in.pcap" ∧
    wPcapFail.pcap_open_status = Status.err ∧
    ((mainAfterParse cfgRead 1 wPcapFail).snd = 0 ∧
     Event.printMsg ("could not open pcap input file " ++ "in.pcap")
       ∈ (mainAfterParse cfgRead 1 wPcapFail).fst ∧
     Event.printErr "could not initialize pcap reader thread context"
       ∈ (mainAfterParse cfgRead 1 wPcapFail).fst ∧
     Event.spawnReaderThread ∉ (mainAfterParse cfgRead 1 wPcapFail).fst) :=
  ⟨by decide, by decide,
   C2_pcap_open_failure cfgRead wPcapFail "in.pcap" (by decide) (by decide) (by decide)
     (by decide) (by decide) (by decide) (by decide) (by decide) (by decide) (by decide)
     (by decide)⟩

theorem C3_exactly_one_input_witness :
    ((∃ s, CmdOpt.capture s ∈ [CmdOpt.capture "eth0", CmdOpt.read "in.pcap"]) ∧
     (∃ s, CmdOpt.read s ∈ [CmdOpt.capture "eth0", CmdOpt.read "in.pcap"])) ∧
    FailsBeforeSpawn (mercuryMain [CmdOpt.capture "eth0", CmdOpt.read "in.pcap"] wAllOk) :=
  ⟨⟨⟨"eth0", by decide⟩, ⟨"in.pcap", by decide⟩⟩,
   C3_exactly_one_input [CmdOpt.capture "eth0", CmdOpt.read "in.pcap"] wAllOk
     (Or.inl ⟨⟨"eth0", by decide⟩, ⟨"in.pcap", by decide⟩⟩)⟩

theorem C4_invalid_loop_count_witness :
    cfgReadLoop0.loop_count < 1 ∧
    (FailsBeforeSpawn (mainAfterParse cfgReadLoop0 1 wAllOk) ∧
     Event.printMsg ("error: " ++ "Invalid loop count, it should be >= 1")
       ∈ (mainAfterParse cfgReadLoop0 1 wAllOk).fst) :=
  ⟨by decide,
   C4_invalid_loop_count cfgReadLoop0 wAllOk (by decide) (by decide) (by decide) (by decide)⟩

theorem C5_adaptive_requires_capture_write_witness :
    cfgAdaptiveBoth.adaptive > 0 ∧
    (((cfgAdaptiveBoth.write_filename = none ∨ cfgAdaptiveBoth.capture_interface = none) →
      FailsBeforeSpawn (mainAfterParse cfgAdaptiveBoth 1 wAllOk) ∧
      Event.printMsg ("error: " ++ "The option --adaptive requires options -c capture interface and -w pcap file.")
        ∈ (mainAfterParse cfgAdaptiveBoth 1 wAllOk).fst) ∧
     (cfgAdaptiveBoth.write_filename ≠ none → cfgAdaptiveBoth.capture_interface ≠ none →
      ∃ post, (mainAfterParse cfgAdaptiveBoth 1 wAllOk).fst =
          loopCountEvents cfgAdaptiveBoth ++ Event.setPercentAccept 30 :: post ∧
        spawnFree (loopCountEvents cfgAdaptiveBoth) = true)) :=
  ⟨by decide,
   C5_adaptive_requires_capture_write cfgAdaptiveBoth wAllOk (by decide) (by decide)
     (by decide) (by decide) (by decide)⟩

theorem C6_outputs_exclusive_witness :
    (∃ s, CmdOpt.fingerprint s ∈ [CmdOpt.read "in.pcap", CmdOpt.fingerprint "f.json", CmdOpt.write "o.pcap"]) ∧
    (∃ s, CmdOpt.write s ∈ [CmdOpt.read "in.pcap", CmdOpt.fingerprint "f.json", CmdOpt.write "o.pcap"]) ∧
    FailsBeforeSpawn (mercuryMain [CmdOpt.read "in.pcap", CmdOpt.fingerprint "f.json", CmdOpt.write "o.pcap"] wAllOk) :=
  ⟨⟨"f.json", by decide⟩, ⟨"o.pcap", by decide⟩,
   C6_outputs_exclusive [CmdOpt.read "in.pcap", CmdOpt.fingerprint "f.json", CmdOpt.write "o.pcap"]
     wAllOk ⟨"f.json", by decide⟩ ⟨"o.pcap", by decide⟩ (by intro s h; simp at h)⟩

theorem C7_verbose_stats_witness :
    cfgReadWriteVerbose.verbosity ≠ 0 ∧
    cfgReadWriteVerbose.write_filename ≠ none ∧
    Event.printStats wAllOk.packets_written wAllOk.bytes_written wAllOk.nano_seconds
      ∈ (mainAfterParse cfgReadWriteVerbose 1 wAllOk).fst :=
  ⟨by decide, by decide,
   C7_verbose_stats cfgReadWriteVerbose wAllOk "in.pcap" (by decide) (by decide) (by decide)
     (by decide) (by decide) (by decide) (by decide) (by decide) (by decide) (by decide)
     (by decide) (by decide) (by decide) (by decide) (by decide)⟩

theorem C8_threads_cpu_witness :
    CmdOpt.threads "cpu" ∈ [CmdOpt.read "in.pcap", CmdOpt.fingerprint "f.json", CmdOpt.threads "cpu"] ∧
    Event.foundCpus wAllOk.nprocs (wAllOk.nprocs : Int)
      ∈ (mercuryMain [CmdOpt.read "in.pcap", CmdOpt.fingerprint "f.json", CmdOpt.threads "cpu"] wAllOk).fst :=
  ⟨by decide,
   C8_threads_cpu [CmdOpt.read "in.pcap", CmdOpt.fingerprint "f.json", CmdOpt.threads "cpu"] wAllOk
     { mercury_config_init with
       read_filename := some "in.pcap"
       fingerprint_filename := some "f.json"
       num_threads := -1 } 1
     (by rfl) (by intro s h; simp at h) (by decide)
     (by intro t h; simp at h; exact h) rfl (by decide) (by decide) (by decide) (by decide)
     (by decide)⟩

theorem C9_threads_need_output_witness :
    (∃ t, CmdOpt.threads t ∈ [CmdOpt.read "in.pcap", CmdOpt.threads "4"]) ∧
    FailsBeforeSpawn (mercuryMain [CmdOpt.read "in.pcap", CmdOpt.threads "4"] wAllOk) :=
  ⟨⟨"4", by decide⟩,
   C9_threads_need_output [CmdOpt.read "in.pcap", CmdOpt.threads "4"] wAllOk
     ⟨"4", by decide⟩ (by intro t h; simp at h; subst h; decide)
     (by intro s h; simp at h) (by intro s h; simp at h) (by intro s h; simp at h)⟩

theorem C10_config_directory_count_witness :
    (∃ i j : Nat, ∃ hi : i < ([CmdOpt.config "m.cfg", CmdOpt.directory "/tmp"] : List CmdOpt).length,
      ∃ hj : j < ([CmdOpt.config "m.cfg", CmdOpt.directory "/tmp"] : List CmdOpt).length,
      i ≠ j ∧ countsAsInput (([CmdOpt.config "m.cfg", CmdOpt.directory "/tmp"] : List CmdOpt).get ⟨i, hi⟩) = true ∧
      countsAsInput (([CmdOpt.config "m.cfg", CmdOpt.directory "/tmp"] : List CmdOpt).get ⟨j, hj⟩) = true ∧
      isConfigOrDir (([CmdOpt.config "m.cfg", CmdOpt.directory "/tmp"] : List CmdOpt).get ⟨i, hi⟩) = true) ∧
    (FailsBeforeSpawn (mercuryMain [CmdOpt.config "m.cfg", CmdOpt.directory "/tmp"] wAllOk) ∧
     Event.printMsg ("error: " ++ "incompatible arguments read [r] and capture [c] specified on command line")
       ∈ (mercuryMain [CmdOpt.config "m.cfg", CmdOpt.directory "/tmp"] wAllOk).fst) :=
  ⟨⟨0, 1, by decide, by decide, by decide, by decide, by decide, by decide⟩,
   C10_config_directory_count [CmdOpt.config "m.cfg", CmdOpt.directory "/tmp"] wAllOk
     { mercury_config_init with working_dir := some "/tmp" } 2 (by rfl)
     ⟨0, 1, by decide, by decide, by decide, by decide, by decide, by decide⟩⟩

end Mercury
